import Mathlib

/-!
Verification development for the Topicchat real-time topic messaging engine.

The definitions below are a shallow embedding of the JavaScript source:
 - `src/server/models/Message.js`, `src/server/models/Topic.js` (data model),
 - `src/server/controllers/messageController.js` (editMessage, deleteMessage,
   addReaction),
 - `src/server/server.js` (the socket handlers: join-topic, leave-topic,
   send-message, typing-start, typing-stop, add-reaction, disconnect).

Identifiers (Mongo ObjectIds) are modelled as `Nat`; timestamps as `Int`
milliseconds.  Message content is modelled as `List Char` (a JS string as a
sequence of characters), with `jsTrim` embedding `String.prototype.trim` and
`List.length` embedding `.length`.  Fallible operations return explicit
result values mirroring the error responses of the source, and each socket
handler returns the next server state together with the list of fan-outs it
performs (each fan-out records its recipient connections and its event).
-/

namespace Topicchat

abbrev UserId := Nat
abbrev TopicId := Nat
abbrev MessageId := Nat
abbrev ConnId := Nat

/-- Embedding of `String.prototype.trim`: drop whitespace from both ends. -/
def jsTrim (s : List Char) : List Char :=
  ((s.dropWhile Char.isWhitespace).reverse.dropWhile Char.isWhitespace).reverse

/-- A reaction subdocument: `{user, emoji, createdAt}` (Message.js schema). -/
structure Reaction where
  user : UserId
  emoji : String
  createdAt : Int
deriving DecidableEq, Repr

/-- A message document (Message.js schema, fields used by the engine). -/
structure Message where
  id : MessageId
  content : List Char
  sender : UserId
  topic : TopicId
  isEdited : Bool
  editedAt : Option Int
  replyTo : Option MessageId
  reactions : List Reaction
  createdAt : Int
deriving DecidableEq, Repr

/-- A topic document (Topic.js schema, fields used by the engine). -/
structure Topic where
  id : TopicId
  isPrivate : Bool
  creator : UserId
  members : List UserId
  admins : List UserId
  updatedAt : Int
deriving DecidableEq, Repr

/-- The (user, emoji) key of a reaction, the unit of toggle semantics. -/
def Reaction.pair (r : Reaction) : UserId × String := (r.user, r.emoji)

/-- Projection of a reaction list to its (user, emoji) pairs. -/
def pairsOf (rs : List Reaction) : List (UserId × String) :=
  rs.map Reaction.pair

/-- Does `r` carry reacting user `uid` with emoji `e`?  Mirrors the JS
predicate `r.user.toString() === userId && r.emoji === emoji`. -/
def matchesPair (uid : UserId) (e : String) (r : Reaction) : Bool :=
  r.user == uid && r.emoji == e

/-- The reaction toggle of `addReaction` (messageController.js and the
`add-reaction` socket handler share this logic verbatim): if a reaction by
`uid` with emoji `e` exists, remove every such reaction; otherwise append a
fresh one stamped `now`. -/
def toggleReaction (uid : UserId) (e : String) (now : Int)
    (rs : List Reaction) : List Reaction :=
  if rs.any (matchesPair uid e) then
    rs.filter (fun r => !(matchesPair uid e r))
  else
    rs ++ [⟨uid, e, now⟩]

/-- Iterated reaction toggles by one user with one emoji, at the given
sequence of timestamps. -/
def toggleTimes (uid : UserId) (e : String) (ts : List Int)
    (rs : List Reaction) : List Reaction :=
  ts.foldl (fun acc t => toggleReaction uid e t acc) rs

/-- Effect of one `addReaction` call on the message document: only the
reaction list changes. -/
def applyReaction (uid : UserId) (e : String) (now : Int) (m : Message) :
    Message :=
  { m with reactions := toggleReaction uid e now m.reactions }

/-- Errors reported by messageController.js (HTTP status + message). -/
inductive CtrlError
  | notFound          -- 404 "Message not found"
  | notOwner          -- 403 "Can only edit your own messages"
  | editWindowExpired -- 400 "Message is too old to edit"
  | notAuthorized     -- 403 "Not authorized to delete this message"
  | internalError     -- 500 (uncaught exception path)
deriving DecidableEq, Repr

/-- The 15-minute edit window of editMessage, in milliseconds. -/
def editWindowMs : Int := 15 * 60 * 1000

/-- editMessage (messageController.js): ownership check, then the age check
`message.createdAt < Date.now() - 15*60*1000`, then the update
`content := content; isEdited := true; editedAt := now`. -/
def editMessage (callerId : UserId) (newContent : List Char) (now : Int)
    (m : Message) : Except CtrlError Message :=
  if m.sender ≠ callerId then
    .error .notOwner
  else if m.createdAt < now - editWindowMs then
    .error .editWindowExpired
  else
    .ok { m with content := newContent, isEdited := true, editedAt := some now }

/-- Error payloads the socket handlers emit back to the acting connection
(the strings of the `error` / `message-error` events in server.js). -/
inductive SocketError
  | topicNotFound    -- "Topic not found"
  | accessDenied     -- "Access denied to this topic"
  | emptyContent     -- "Message content cannot be empty"
  | contentTooLong   -- "Message too long (max 1000 characters)"
  | messageNotFound  -- "Message not found"
deriving DecidableEq, Repr

/-- Events the engine fans out to live connections (server.js emissions). -/
inductive RoomEvent
  | newMessage (m : Message)
  | userJoined (t : TopicId) (u : UserId)
  | userLeft (u : UserId)
  | userTyping (t : TopicId) (u : UserId)
  | userStopTyping (t : TopicId) (u : UserId)
  | reactionUpdated (mid : MessageId) (rs : List Reaction)
  | messageDeleted (mid : MessageId) (t : TopicId)
  | errorEvt (e : SocketError)      -- socket.emit('error', ...)
  | messageError (e : SocketError)  -- socket.emit('message-error', ...)
deriving DecidableEq, Repr

/-- One fan-out: the connections it is delivered to, and the event. -/
structure Emit where
  recipients : List ConnId
  event : RoomEvent
deriving DecidableEq, Repr

/-- deleteMessage (messageController.js): looks up the message, then its
topic; authorizes `senderId == caller` or `topic.admins.includes(caller)`;
on success removes the message from the store.  The controller answers the
HTTP caller only: it performs no socket emission, so the returned fan-out
list is empty on every path. -/
def deleteMessage (callerId : UserId) (mid : MessageId)
    (messages : List Message) (topics : List Topic) :
    Except CtrlError (List Message × List Emit) :=
  match messages.find? (fun m => m.id == mid) with
  | none => .error .notFound
  | some m =>
    match topics.find? (fun t => t.id == m.topic) with
    | none => .error .internalError
    | some topic =>
      let isOwner := m.sender == callerId
      let isAdmin := topic.admins.contains callerId
      if isOwner || isAdmin then
        .ok (messages.filter (fun x => !(x.id == mid)), [])
      else
        .error .notAuthorized

/-! ### The live server state (server.js socket layer)

`rooms` embeds the socket.io adapter's room table: an association list from
room (topic) id to the list of sockets currently joined to it.  A socket may
appear in several rooms, exactly as in socket.io. -/

/-- A live authenticated connection: `socket.id`, `socket.user._id`, and the
`socket.currentTopic` property server.js maintains. -/
structure Connection where
  connId : ConnId
  user : UserId
  currentTopic : Option TopicId
deriving DecidableEq, Repr

/-- The room table of the socket.io adapter. -/
abbrev Rooms := List (TopicId × List ConnId)

/-- The connections currently joined to room `t` (the room's live set). -/
def roomConns : Rooms → TopicId → List ConnId
  | [], _ => []
  | p :: ps, t => if p.1 == t then p.2 else roomConns ps t

/-- socket.join(t): add `cid` to room `t`, creating the room if absent. -/
def addToRoom (t : TopicId) (cid : ConnId) : Rooms → Rooms
  | [] => [(t, [cid])]
  | p :: ps =>
    if p.1 == t then
      (p.1, if p.2.contains cid then p.2 else p.2 ++ [cid]) :: ps
    else
      p :: addToRoom t cid ps

/-- socket.leave(t): remove `cid` from room `t`. -/
def removeFromRoom (t : TopicId) (cid : ConnId) : Rooms → Rooms
  | [] => []
  | p :: ps =>
    if p.1 == t then
      (p.1, p.2.filter (fun c => !(c == cid))) :: ps
    else
      p :: removeFromRoom t cid ps

/-- Room cleanup on disconnect: the socket leaves every room. -/
def removeFromAllRooms (cid : ConnId) (rooms : Rooms) : Rooms :=
  rooms.map (fun p => (p.1, p.2.filter (fun c => !(c == cid))))

/-- The whole in-memory server state: durable stores plus the live layer. -/
structure ServerState where
  topics : List Topic
  messages : List Message
  connections : List Connection
  rooms : Rooms
  nextMessageId : MessageId
deriving DecidableEq, Repr

/-- The room `t`'s live set in state `st`. -/
def liveSet (st : ServerState) (t : TopicId) : List ConnId :=
  roomConns st.rooms t

/-- The `currentTopic` property of connection `cid` (none if unset or the
connection is unknown). -/
def connCurrent (st : ServerState) (cid : ConnId) : Option TopicId :=
  match st.connections.find? (fun c => c.connId == cid) with
  | some c => c.currentTopic
  | none => none

/-- Overwrite `socket.currentTopic` for connection `cid`. -/
def setCurrentTopic (st : ServerState) (cid : ConnId) (t : Option TopicId) :
    ServerState :=
  { st with
    connections := st.connections.map
      (fun c => if c.connId == cid then { c with currentTopic := t } else c) }

/-- The `join-topic` handler (server.js): look up the topic (`error` with
"Topic not found" if absent); check `!topic.isPrivate ||
topic.members.includes(user)` (`error` "Access denied" otherwise); on
success `socket.join(topicId)`, set `socket.currentTopic`, and broadcast
`user-joined-topic` to the rest of the room.  Note the handler never leaves
a previously joined room. -/
def joinTopic (st : ServerState) (cid : ConnId) (uid : UserId)
    (topicId : TopicId) : ServerState × List Emit :=
  match st.topics.find? (fun t => t.id == topicId) with
  | none => (st, [⟨[cid], .errorEvt .topicNotFound⟩])
  | some topic =>
    if !topic.isPrivate || topic.members.contains uid then
      let st1 := { st with rooms := addToRoom topicId cid st.rooms }
      let st2 := setCurrentTopic st1 cid (some topicId)
      (st2, [⟨(liveSet st2 topicId).filter (fun c => !(c == cid)),
             .userJoined topicId uid⟩])
    else
      (st, [⟨[cid], .errorEvt .accessDenied⟩])

/-- The `leave-topic` handler (server.js): `socket.leave(topicId)` and a
`user-left-topic` broadcast to the rest of the room.  It does not clear
`socket.currentTopic`. -/
def leaveTopic (st : ServerState) (cid : ConnId) (uid : UserId)
    (topicId : TopicId) : ServerState × List Emit :=
  let st1 := { st with rooms := removeFromRoom topicId cid st.rooms }
  (st1, [⟨(liveSet st1 topicId).filter (fun c => !(c == cid)),
         .userLeft uid⟩])

/-- The `send-message` handler (server.js): reject empty (trimmed) content,
then content whose raw length exceeds 1000; look up the topic and check
access; persist `{content: content.trim(), sender, topic, replyTo}` with a
fresh id and server timestamp; bump the topic's `updatedAt`; then
`io.in(topicId).emit('new-message', ...)` — a fan-out to the room's entire
live set (and no one else).  The handler never consults
`socket.currentTopic`. -/
def sendMessage (st : ServerState) (cid : ConnId) (uid : UserId)
    (content : List Char) (topicId : TopicId) (replyTo : Option MessageId)
    (now : Int) : ServerState × List Emit :=
  if jsTrim content = [] then
    (st, [⟨[cid], .messageError .emptyContent⟩])
  else if content.length > 1000 then
    (st, [⟨[cid], .messageError .contentTooLong⟩])
  else
    match st.topics.find? (fun t => t.id == topicId) with
    | none => (st, [⟨[cid], .messageError .topicNotFound⟩])
    | some topic =>
      if !topic.isPrivate || topic.members.contains uid then
        let msg : Message :=
          ⟨st.nextMessageId, jsTrim content, uid, topicId,
           false, none, replyTo, [], now⟩
        let st' := { st with
          messages := st.messages ++ [msg],
          topics := st.topics.map
            (fun t => if t.id == topicId then { t with updatedAt := now } else t),
          nextMessageId := st.nextMessageId + 1 }
        (st', [⟨liveSet st topicId, .newMessage msg⟩])
      else
        (st, [⟨[cid], .messageError .accessDenied⟩])

/-- The `typing-start` handler (server.js): a stateless relay — broadcast
`user-typing` to the rest of the room.  No typing entry and no timer are
kept server-side. -/
def typingStartHandler (st : ServerState) (cid : ConnId) (uid : UserId)
    (topicId : TopicId) : ServerState × List Emit :=
  (st, [⟨(liveSet st topicId).filter (fun c => !(c == cid)),
        .userTyping topicId uid⟩])

/-- The `typing-stop` handler (server.js): a stateless relay — broadcast
`user-stop-typing` to the rest of the room. -/
def typingStopHandler (st : ServerState) (cid : ConnId) (uid : UserId)
    (topicId : TopicId) : ServerState × List Emit :=
  (st, [⟨(liveSet st topicId).filter (fun c => !(c == cid)),
        .userStopTyping topicId uid⟩])

/-- The `add-reaction` handler (server.js): silently ignore an empty or
over-long emoji (a bare `return`); look up the message (`error` "Message
not found" if absent); toggle the reaction; persist; then fan the updated
reaction list out to the message's whole room via `io.in(...)`. -/
def addReactionHandler (st : ServerState) (cid : ConnId) (uid : UserId)
    (mid : MessageId) (emoji : String) (now : Int) :
    ServerState × List Emit :=
  if emoji = "" ∨ emoji.length > 10 then
    (st, [])
  else
    match st.messages.find? (fun m => m.id == mid) with
    | none => (st, [⟨[cid], .errorEvt .messageNotFound⟩])
    | some m =>
      let m' := applyReaction uid emoji now m
      let st' := { st with
        messages := st.messages.map (fun x => if x.id == mid then m' else x) }
      (st', [⟨liveSet st m.topic, .reactionUpdated mid m'.reactions⟩])

/-- The `disconnect` handler (server.js) together with socket.io's own
cleanup: the socket leaves every room and its record is dropped; if
`socket.currentTopic` was set, `user-left-topic` is broadcast to the rest
of that room.  No `user-stop-typing` is emitted. -/
def disconnectHandler (st : ServerState) (cid : ConnId) (uid : UserId) :
    ServerState × List Emit :=
  let cur := connCurrent st cid
  let st' := { st with
    rooms := removeFromAllRooms cid st.rooms,
    connections := st.connections.filter (fun c => !(c.connId == cid)) }
  match cur with
  | some t => (st', [⟨(roomConns st'.rooms t).filter (fun c => !(c == cid)),
                     .userLeft uid⟩])
  | none => (st', [])

/-- The inbound socket commands of server.js (each tagged with the acting
connection and its authenticated user). -/
inductive Command
  | join (cid : ConnId) (uid : UserId) (t : TopicId)
  | leave (cid : ConnId) (uid : UserId) (t : TopicId)
  | send (cid : ConnId) (uid : UserId) (content : List Char) (t : TopicId)
      (replyTo : Option MessageId) (now : Int)
  | typingStart (cid : ConnId) (uid : UserId) (t : TopicId)
  | typingStop (cid : ConnId) (uid : UserId) (t : TopicId)
  | react (cid : ConnId) (uid : UserId) (mid : MessageId) (emoji : String)
      (now : Int)
  | disconnect (cid : ConnId) (uid : UserId)
deriving DecidableEq, Repr

/-- Dispatch of one inbound command to its handler. -/
def step (st : ServerState) : Command → ServerState × List Emit
  | .join cid uid t => joinTopic st cid uid t
  | .leave cid uid t => leaveTopic st cid uid t
  | .send cid uid content t replyTo now =>
      sendMessage st cid uid content t replyTo now
  | .typingStart cid uid t => typingStartHandler st cid uid t
  | .typingStop cid uid t => typingStopHandler st cid uid t
  | .react cid uid mid emoji now => addReactionHandler st cid uid mid emoji now
  | .disconnect cid uid => disconnectHandler st cid uid

/-- Run a whole trace of commands, collecting every fan-out in order. -/
def run (st : ServerState) : List Command → ServerState × List Emit
  | [] => (st, [])
  | c :: cs =>
    let r := step st c
    let r' := run r.1 cs
    (r'.1, r.2 ++ r'.2)

/-- Is this event a `user-stop-typing` fan-out? -/
def isStopTyping : RoomEvent → Bool
  | .userStopTyping _ _ => true
  | _ => false

/-- Is this event a `user-left-topic` fan-out? -/
def isUserLeft : RoomEvent → Bool
  | .userLeft _ => true
  | _ => false

/-- Is this event a `new-message` fan-out? -/
def isNewMessage : RoomEvent → Bool
  | .newMessage _ => true
  | _ => false

/-- How many `user-stop-typing` fan-outs a list of emissions contains. -/
def countStopTyping (es : List Emit) : Nat :=
  (es.filter (fun e => isStopTyping e.event)).length

/-- Is this command an explicit `typing-stop`? -/
def isTypingStopCmd : Command → Bool
  | .typingStop _ _ _ => true
  | _ => false

/-! ### Helper lemmas -/

lemma toggleReaction_filter (uid : UserId) (e : String) (now : Int)
    (rs : List Reaction) :
    (toggleReaction uid e now rs).filter (fun r => !(matchesPair uid e r)) =
      rs.filter (fun r => !(matchesPair uid e r)) := by
  unfold toggleReaction
  by_cases h : rs.any (matchesPair uid e)
  · simp [h, List.filter_filter]
  · simp only [h, Bool.false_eq_true, if_false, List.filter_append]
    have hm : matchesPair uid e ⟨uid, e, now⟩ = true := by
      simp [matchesPair]
    simp [hm]

lemma matchesPair_self (uid : UserId) (e : String) (t : Int) :
    matchesPair uid e ⟨uid, e, t⟩ = true := by
  simp [matchesPair]

lemma matchesPair_eq_pair_beq (uid : UserId) (e : String) (r : Reaction) :
    matchesPair uid e r = (r.pair == (uid, e)) := rfl

lemma pairsOf_append (a b : List Reaction) :
    pairsOf (a ++ b) = pairsOf a ++ pairsOf b :=
  List.map_append _ a b

lemma toggle_twice_of_any_false (uid : UserId) (e : String) (t1 t2 : Int)
    (rs : List Reaction) (h : rs.any (matchesPair uid e) = false) :
    toggleReaction uid e t2 (toggleReaction uid e t1 rs) = rs := by
  have h1 : toggleReaction uid e t1 rs = rs ++ [⟨uid, e, t1⟩] := by
    unfold toggleReaction; simp [h]
  have h2 : (rs ++ [(⟨uid, e, t1⟩ : Reaction)]).any (matchesPair uid e) = true := by
    simp [List.any_append, matchesPair_self]
  have h3 : rs.filter (fun r => !(matchesPair uid e r)) = rs := by
    rw [List.filter_eq_self]
    intro r hr
    rw [List.any_eq_false] at h
    simp [h r hr]
  rw [h1]
  unfold toggleReaction
  rw [h2]
  simp [List.filter_append, h3, matchesPair_self]

lemma pairsOf_filter (uid : UserId) (e : String) (rs : List Reaction) :
    pairsOf (rs.filter (fun r => !(matchesPair uid e r))) =
      (pairsOf rs).filter (fun q => !(q == (uid, e))) := by
  induction rs with
  | nil => rfl
  | cons r t ih =>
    by_cases h : matchesPair uid e r
    · have hq : (r.pair == (uid, e)) = true := matchesPair_eq_pair_beq uid e r ▸ h
      simp [pairsOf, List.filter_cons, h, hq] at ih ⊢
      exact ih
    · have hb : matchesPair uid e r = false := by
        simpa using h
      have hq : (r.pair == (uid, e)) = false :=
        matchesPair_eq_pair_beq uid e r ▸ hb
      simp [pairsOf, List.filter_cons, hb, hq] at ih ⊢
      exact ih

lemma filter_beq_perm {α : Type} [BEq α] [LawfulBEq α] (a : α) (l : List α)
    (hnd : l.Nodup) (hmem : a ∈ l) :
    List.Perm (l.filter (fun q => !(q == a)) ++ [a]) l := by
  induction l with
  | nil => cases hmem
  | cons x t ih =>
    by_cases hxa : x = a
    · subst hxa
      have hat : x ∉ t := (List.nodup_cons.mp hnd).1
      have hft : t.filter (fun q => !(q == x)) = t := by
        rw [List.filter_eq_self]
        intro b hb
        simp only [Bool.not_eq_true', beq_eq_false_iff_ne]
        exact fun hbx => hat (hbx ▸ hb)
      have hhead : (x :: t).filter (fun q => !(q == x)) = t := by
        rw [List.filter_cons]
        simp [hft]
      rw [hhead]
      exact List.perm_append_singleton x t
    · have hmem' : a ∈ t := by
        rcases List.mem_cons.mp hmem with h | h
        · exact absurd h.symm hxa
        · exact h
      have hnd' : t.Nodup := (List.nodup_cons.mp hnd).2
      have hx : (!(x == a)) = true := by simp [hxa]
      rw [List.filter_cons]
      simp only [hx, if_pos, List.cons_append]
      exact List.Perm.cons x (ih hnd' hmem')

lemma toggle_twice_perm (uid : UserId) (e : String) (t1 t2 : Int)
    (rs : List Reaction) (hdup : (pairsOf rs).Nodup) :
    List.Perm (pairsOf (toggleReaction uid e t2 (toggleReaction uid e t1 rs)))
      (pairsOf rs) := by
  by_cases h : rs.any (matchesPair uid e)
  case neg =>
    rw [toggle_twice_of_any_false uid e t1 t2 rs (by simpa using h)]
  case pos =>
    have h1 : toggleReaction uid e t1 rs =
        rs.filter (fun r => !(matchesPair uid e r)) := by
      unfold toggleReaction; simp [h]
    have h2 : (rs.filter (fun r => !(matchesPair uid e r))).any
        (matchesPair uid e) = false := by
      rw [List.any_eq_false]
      intro r hr
      have := (List.mem_filter.mp hr).2
      simp at this
      simp [this]
    have h3 : toggleReaction uid e t2 (toggleReaction uid e t1 rs) =
        rs.filter (fun r => !(matchesPair uid e r)) ++ [⟨uid, e, t2⟩] := by
      rw [h1]; unfold toggleReaction; rw [h2]; simp
    have h4 : pairsOf (rs.filter (fun r => !(matchesPair uid e r)) ++
          [⟨uid, e, t2⟩]) =
        (pairsOf rs).filter (fun q => !(q == (uid, e))) ++ [(uid, e)] := by
      rw [pairsOf_append, pairsOf_filter]
      rfl
    have hmem : (uid, e) ∈ pairsOf rs := by
      rcases List.any_eq_true.mp h with ⟨r, hr, hpr⟩
      have h5 : r.user = uid ∧ r.emoji = e := by
        simpa [matchesPair] using hpr
      have : r.pair = (uid, e) := by
        simp [Reaction.pair, h5.1, h5.2]
      exact this ▸ List.mem_map_of_mem Reaction.pair hr
    rw [h3, h4]
    exact filter_beq_perm (uid, e) (pairsOf rs) hdup hmem

/-! ### C5: reaction toggle, corrected -/

/-- A concrete reaction list with the toggled pair in first position. -/
def rsC5 : List Reaction := [⟨1, "a", 0⟩, ⟨2, "b", 0⟩]

/-- C5 counterexample: reacting twice with the same (user, emoji) pair does
not return the reaction list to its prior state — the surviving entry is
re-appended at the end with a fresh `createdAt`. -/
theorem C5_counterexample :
    toggleReaction 1 "a" 6 (toggleReaction 1 "a" 5 rsC5) =
      [⟨2, "b", 0⟩, ⟨1, "a", 6⟩] ∧
    toggleReaction 1 "a" 6 (toggleReaction 1 "a" 5 rsC5) ≠ rsC5 := by
  decide

/-- C5 amended: reacting when the (user, emoji) pair exists removes it and
reacting when it does not exist appends it; provided each pair occurs at
most once, any even number of reactions with one pair restores the multiset
of (user, emoji) pairs of the reaction list (position and `createdAt` of the
toggled pair's entry are not restored). -/
theorem C5_toggle_even (uid : UserId) (e : String) (rs : List Reaction)
    (ts : List Int) (n : Nat) (hdup : (pairsOf rs).Nodup)
    (hlen : ts.length = 2 * n) :
    List.Perm (pairsOf (toggleTimes uid e ts rs)) (pairsOf rs) := by
  induction n generalizing rs ts with
  | zero =>
    cases ts with
    | nil => exact List.Perm.refl _
    | cons a l =>
      simp at hlen
  | succ k ih =>
    cases ts with
    | nil =>
      simp at hlen
    | cons a ts' =>
      cases ts' with
      | nil =>
        simp at hlen
        omega
      | cons b rest =>
        have hlen' : rest.length = 2 * k := by
          simp at hlen
          omega
        have hstep := toggle_twice_perm uid e a b rs hdup
        have hdup' : (pairsOf (toggleReaction uid e b
            (toggleReaction uid e a rs))).Nodup := hstep.symm.nodup hdup
        have hfold : toggleTimes uid e (a :: b :: rest) rs =
            toggleTimes uid e rest
              (toggleReaction uid e b (toggleReaction uid e a rs)) := rfl
        rw [hfold]
        exact (ih _ rest hdup' hlen').trans hstep

/-- Witness for the amended C5 at a concrete reaction list. -/
theorem C5_toggle_even_witness :
    (pairsOf rsC5).Nodup ∧ ([5, 6] : List Int).length = 2 * 1 ∧
    List.Perm (pairsOf (toggleTimes 1 "a" [5, 6] rsC5)) (pairsOf rsC5) :=
  ⟨by decide, by decide, C5_toggle_even 1 "a" rsC5 [5, 6] 1 (by decide) rfl⟩

/-! ### C6: message deletion -/

/-- Is this event a `message-deleted` fan-out? -/
def isMessageDeleted : RoomEvent → Bool
  | .messageDeleted _ _ => true
  | _ => false

/-- A concrete message whose sender is user 1, in topic 2. -/
def msgC6 : Message := ⟨5, ['h', 'i'], 1, 2, false, none, none, [], 0⟩

/-- A concrete topic 2 whose only admin is user 3. -/
def topicC6 : Topic := ⟨2, false, 1, [1, 3], [3], 0⟩

/-- C6 counterexample: a delete by the message's sender succeeds and the
deletion is persisted, but the fan-out list is empty — no deletion event
carrying the message id and room id is broadcast to the room's
connections. -/
theorem C6_counterexample :
    deleteMessage 1 5 [msgC6] [topicC6] = .ok ([], []) ∧
    (deleteMessage 1 5 [msgC6] [topicC6]).toOption.map
        (fun r => r.2.any (fun em => isMessageDeleted em.event)) =
      some false :=
  ⟨rfl, rfl⟩

/-- C6 amended: a delete succeeds exactly when the caller is the message's
sender or an admin of the message's room (failing NotAuthorized otherwise),
and on success the deletion is persisted; the result is answered to the
HTTP caller only — no deletion event is broadcast (the fan-out list is
empty). -/
theorem C6_delete_auth (callerId : UserId) (mid : MessageId)
    (messages : List Message) (topics : List Topic) (m : Message)
    (topic : Topic)
    (hm : messages.find? (fun x => x.id == mid) = some m)
    (ht : topics.find? (fun t => t.id == m.topic) = some topic) :
    (m.sender = callerId ∨ callerId ∈ topic.admins →
      deleteMessage callerId mid messages topics =
        .ok (messages.filter (fun x => !(x.id == mid)), [])) ∧
    (m.sender ≠ callerId → callerId ∉ topic.admins →
      deleteMessage callerId mid messages topics = .error .notAuthorized) := by
  simp only [deleteMessage, hm, ht]
  refine ⟨fun h => ?_, fun h1 h2 => ?_⟩
  · rw [if_pos]
    rcases h with h | h
    · rw [h]
      simp
    · have hc : topic.admins.contains callerId = true := by simpa using h
      rw [hc, Bool.or_true]
  · rw [if_neg]
    intro hc
    rcases Bool.or_eq_true_iff.mp hc with hs | hb
    · exact h1 (eq_of_beq hs)
    · exact h2 (by simpa using hb)

/-- Witness for the amended C6: the sender's delete succeeds with no
broadcast; a delete by user 4 (neither sender nor admin) is refused. -/
theorem C6_delete_auth_witness :
    [msgC6].find? (fun x => x.id == 5) = some msgC6 ∧
    [topicC6].find? (fun t => t.id == msgC6.topic) = some topicC6 ∧
    deleteMessage 1 5 [msgC6] [topicC6] = .ok ([], []) ∧
    deleteMessage 4 5 [msgC6] [topicC6] = .error .notAuthorized := by
  refine ⟨by decide, by decide, ?_, ?_⟩
  · have h := (C6_delete_auth 1 5 [msgC6] [topicC6] msgC6 topicC6
      (by decide) (by decide)).1 (Or.inl (by decide))
    rw [h]
    rfl
  · exact (C6_delete_auth 4 5 [msgC6] [topicC6] msgC6 topicC6
      (by decide) (by decide)).2 (by decide) (by decide)

/-! ### C8: the edit window -/

/-- C8: for every message whose author attempts an edit, the edit fails with
EditWindowExpired exactly when `now - createdAt` exceeds 15 minutes, and a
successful edit sets the content to the new content, `isEdited` to true and
`editedAt` to now. -/
theorem C8_edit_window (m : Message) (callerId : UserId) (c : List Char)
    (now : Int) (hown : m.sender = callerId) :
    (editMessage callerId c now m = .error .editWindowExpired ↔
      now - m.createdAt > editWindowMs) ∧
    (now - m.createdAt ≤ editWindowMs →
      editMessage callerId c now m =
        .ok { m with content := c, isEdited := true, editedAt := some now }) := by
  unfold editMessage
  constructor
  · constructor
    · intro h
      by_cases hlt : m.createdAt < now - editWindowMs
      · omega
      · simp [hown, hlt] at h
    · intro h
      have hlt : m.createdAt < now - editWindowMs := by omega
      simp [hown, hlt]
  · intro h
    have hlt : ¬ m.createdAt < now - editWindowMs := by omega
    simp [hown, hlt]

/-- A concrete message for exercising the edit window boundary. -/
def msgC8 : Message := ⟨1, ['h', 'i'], 7, 1, false, none, none, [], 0⟩

/-- Witness for C8: an edit at `createdAt + 14:59` succeeds and an edit at
`createdAt + 15:01` fails with EditWindowExpired. -/
theorem C8_edit_window_witness :
    msgC8.sender = 7 ∧
    editMessage 7 ['o', 'k'] 899000 msgC8 =
      .ok { msgC8 with
            content := ['o', 'k'], isEdited := true, editedAt := some 899000 } ∧
    editMessage 7 ['o', 'k'] 901000 msgC8 = .error .editWindowExpired :=
  ⟨rfl,
   (C8_edit_window msgC8 7 ['o', 'k'] 899000 rfl).2 (by decide),
   (C8_edit_window msgC8 7 ['o', 'k'] 901000 rfl).1.mpr (by decide)⟩

/-! ### C10: the reaction operation's frame -/

/-- C10: a react operation preserves every reaction whose (user, emoji) pair
differs from the actor's pair, in its original relative order (the filter to
the other pairs is unchanged), and changes no field of the message other
than its reaction list. -/
theorem C10_reaction_frame (uid : UserId) (e : String) (now : Int)
    (m : Message) :
    (applyReaction uid e now m).content = m.content ∧
    (applyReaction uid e now m).sender = m.sender ∧
    (applyReaction uid e now m).topic = m.topic ∧
    (applyReaction uid e now m).createdAt = m.createdAt ∧
    (applyReaction uid e now m).isEdited = m.isEdited ∧
    (applyReaction uid e now m).editedAt = m.editedAt ∧
    (applyReaction uid e now m).replyTo = m.replyTo ∧
    (applyReaction uid e now m).id = m.id ∧
    (applyReaction uid e now m).reactions.filter
        (fun r => !(matchesPair uid e r)) =
      m.reactions.filter (fun r => !(matchesPair uid e r)) :=
  ⟨rfl, rfl, rfl, rfl, rfl, rfl, rfl, rfl,
   toggleReaction_filter uid e now m.reactions⟩

/-! ### Room-table lemmas -/

lemma roomConns_addToRoom_self (t : TopicId) (cid : ConnId) (rooms : Rooms) :
    cid ∈ roomConns (addToRoom t cid rooms) t := by
  induction rooms with
  | nil => simp [addToRoom, roomConns]
  | cons p ps ih =>
    by_cases h : p.1 = t
    · have hb : (p.1 == t) = true := by simp [h]
      simp only [addToRoom, hb, if_true, roomConns]
      by_cases hm : cid ∈ p.2
      · simp [hm]
      · simp [hm]
    · have hb : (p.1 == t) = false := by simp [h]
      simp only [addToRoom, hb, Bool.false_eq_true, if_false, roomConns]
      simpa [hb] using ih

lemma roomConns_addToRoom_ne (t t' : TopicId) (cid : ConnId) (rooms : Rooms)
    (h : t ≠ t') : roomConns (addToRoom t' cid rooms) t = roomConns rooms t := by
  induction rooms with
  | nil =>
    have hb : (t' == t) = false := by simp [Ne.symm h]
    simp [addToRoom, roomConns, hb]
  | cons p ps ih =>
    by_cases hp : p.1 = t'
    · have hb : (p.1 == t') = true := by simp [hp]
      have hb2 : (p.1 == t) = false := by simp [hp, Ne.symm h]
      simp [addToRoom, hb, roomConns, hb2]
    · have hb : (p.1 == t') = false := by simp [hp]
      simp [addToRoom, hb, roomConns, ih]

lemma connCurrent_map_setTopic (l : List Connection) (cid : ConnId)
    (t : Option TopicId) (hex : ∃ c ∈ l, c.connId = cid) :
    (match (l.map (fun c =>
        if c.connId == cid then { c with currentTopic := t } else c)).find?
        (fun c => c.connId == cid) with
     | some c => c.currentTopic
     | none => none) = t := by
  induction l with
  | nil =>
    rcases hex with ⟨c, hc, _⟩
    cases hc
  | cons c l ih =>
    by_cases h : c.connId = cid
    · simp [List.find?_cons, h]
    · rcases hex with ⟨c', hc', hcid⟩
      have hmem : c' ∈ l := by
        rcases List.mem_cons.mp hc' with rfl | hm
        · exact absurd hcid h
        · exact hm
      simpa [List.find?_cons, h] using ih ⟨c', hmem, hcid⟩

lemma connCurrent_setCurrentTopic (st : ServerState) (cid : ConnId)
    (t : Option TopicId) (hex : ∃ c ∈ st.connections, c.connId = cid) :
    connCurrent (setCurrentTopic st cid t) cid = t :=
  connCurrent_map_setTopic st.connections cid t hex

/-! ### C2: private-room join access -/

/-- C2: a join on the topic by a non-member of a private room fails with
access denied and leaves the state unchanged (the connection is not added
to the room); a join by a member of a private room, or any join on a
non-private room, puts the connection in the room's live set. -/
theorem C2_private_access (st : ServerState) (cid : ConnId) (uid : UserId)
    (topicId : TopicId) (topic : Topic)
    (hfind : st.topics.find? (fun t => t.id == topicId) = some topic) :
    (topic.isPrivate = true → uid ∉ topic.members →
      joinTopic st cid uid topicId = (st, [⟨[cid], .errorEvt .accessDenied⟩])) ∧
    (topic.isPrivate = true → uid ∈ topic.members →
      cid ∈ liveSet (joinTopic st cid uid topicId).1 topicId) ∧
    (topic.isPrivate = false →
      cid ∈ liveSet (joinTopic st cid uid topicId).1 topicId) := by
  simp only [joinTopic, hfind]
  refine ⟨fun hpriv hmem => ?_, fun hpriv hmem => ?_, fun hpub => ?_⟩
  · rw [if_neg]
    intro hc
    rcases Bool.or_eq_true_iff.mp hc with hp | hm
    · rw [hpriv] at hp
      simp at hp
    · exact hmem (by simpa using hm)
  · rw [if_pos]
    · exact roomConns_addToRoom_self topicId cid st.rooms
    · have : topic.members.contains uid = true := by simpa using hmem
      rw [this, Bool.or_true]
  · rw [if_pos]
    · exact roomConns_addToRoom_self topicId cid st.rooms
    · rw [hpub]
      rfl

/-- A private topic (id 3) whose only member is user 1. -/
def topicC2 : Topic := ⟨3, true, 1, [1], [1], 0⟩

/-- A server state holding only the private topic and one live socket. -/
def stC2 : ServerState := ⟨[topicC2], [], [⟨10, 2, none⟩], [], 0⟩

/-- Witness for C2: user 2 (non-member) is refused; user 1 (member) lands in
the live set of the private room. -/
theorem C2_private_access_witness :
    [topicC2].find? (fun t => t.id == 3) = some topicC2 ∧
    joinTopic stC2 10 2 3 = (stC2, [⟨[10], .errorEvt .accessDenied⟩]) ∧
    10 ∈ liveSet (joinTopic stC2 10 1 3).1 3 :=
  ⟨by decide,
   (C2_private_access stC2 10 2 3 topicC2 (by decide)).1 rfl (by decide),
   (C2_private_access stC2 10 1 3 topicC2 (by decide)).2.1 rfl (by decide)⟩

/-! ### C4: joining a second room, corrected -/

/-- A public topic with id 1. -/
def topicA : Topic := ⟨1, false, 1, [], [], 0⟩

/-- A public topic with id 2. -/
def topicB : Topic := ⟨2, false, 1, [], [], 0⟩

/-- A state with both public topics and one fresh connection. -/
def stC4 : ServerState := ⟨[topicA, topicB], [], [⟨10, 100, none⟩], [], 0⟩

/-- The state after connection 10 joined topic 1. -/
def stC4a : ServerState := (joinTopic stC4 10 100 1).1

/-- The result of connection 10 then joining topic 2. -/
def resC4 : ServerState × List Emit := joinTopic stC4a 10 100 2

/-- C4 counterexample: after joining topic 1 and then topic 2, connection 10
is in the live sets of both rooms at once, and the second join broadcast no
user-left event for the first room — no implicit leave happened. -/
theorem C4_counterexample :
    10 ∈ liveSet resC4.1 1 ∧ 10 ∈ liveSet resC4.1 2 ∧
    resC4.2.all (fun e => !(isUserLeft e.event)) = true := by
  decide

/-- C4 amended: a successful join adds the connection to the new room's live
set and overwrites `joinedRoomId` (`socket.currentTopic`) but does not
remove the connection from the previous room's live set and emits no
user-left event — a connection can be in several live sets at once. -/
theorem C4_join_keeps_previous_room (st : ServerState) (cid : ConnId)
    (uid : UserId) (t0 t1 : TopicId) (topic : Topic)
    (hfind : st.topics.find? (fun t => t.id == t1) = some topic)
    (hacc : (!topic.isPrivate || topic.members.contains uid) = true)
    (hprev : cid ∈ liveSet st t0) (hne : t0 ≠ t1)
    (hex : ∃ c ∈ st.connections, c.connId = cid) :
    cid ∈ liveSet (joinTopic st cid uid t1).1 t0 ∧
    cid ∈ liveSet (joinTopic st cid uid t1).1 t1 ∧
    connCurrent (joinTopic st cid uid t1).1 cid = some t1 ∧
    (joinTopic st cid uid t1).2.all (fun e => !(isUserLeft e.event)) = true := by
  simp only [joinTopic, hfind]
  rw [if_pos hacc]
  refine ⟨?_, ?_, ?_, rfl⟩
  · show cid ∈ roomConns (addToRoom t1 cid st.rooms) t0
    rw [roomConns_addToRoom_ne t0 t1 cid st.rooms hne]
    exact hprev
  · exact roomConns_addToRoom_self t1 cid st.rooms
  · exact connCurrent_map_setTopic st.connections cid (some t1) hex

/-- Witness for the amended C4, at the concrete two-topic scenario. -/
theorem C4_join_keeps_previous_room_witness :
    stC4a.topics.find? (fun t => t.id == 2) = some topicB ∧
    10 ∈ liveSet stC4a 1 ∧
    (10 ∈ liveSet resC4.1 1 ∧ 10 ∈ liveSet resC4.1 2 ∧
     connCurrent resC4.1 10 = some 2 ∧
     resC4.2.all (fun e => !(isUserLeft e.event)) = true) :=
  ⟨by decide, by decide,
   C4_join_keeps_previous_room stC4a 10 100 1 2 topicB (by decide) (by decide)
     (by decide) (by decide) (by decide)⟩

/-! ### C1 and C3: the send-message fan-out -/

/-- A public topic with id 1 for the send scenarios. -/
def topicC1 : Topic := ⟨1, false, 1, [], [], 0⟩

/-- A state where socket 20 (user 200) is joined to room 1 while socket 10
(user 100) is connected but joined to no room. -/
def stC1 : ServerState :=
  ⟨[topicC1], [], [⟨10, 100, none⟩, ⟨20, 200, some 1⟩], [(1, [20])], 0⟩

/-- The result of the unjoined socket 10 sending "hi" to room 1. -/
def resC1 : ServerState × List Emit := sendMessage stC1 10 100 ['h', 'i'] 1 none 5

/-- C1 counterexample: socket 10's send succeeds (a message is persisted and
a new-message fan-out goes out), yet the new-message fan-out does not
include the sender's own connection — the fan-out is the room's live set,
which socket 10 never joined. -/
theorem C1_counterexample :
    resC1.1.messages.length = 1 ∧
    resC1.2.any (fun e => isNewMessage e.event) = true ∧
    resC1.2.all
      (fun e => !(isNewMessage e.event) || e.recipients.contains 10) = false := by
  decide

/-- C1 amended: every successful send performs exactly one fan-out of the
populated message, whose recipient set is the room's live set; hence the
sender's connection receives it precisely when that connection is in the
room's live set (no local echo is synthesized). -/
theorem C1_fanout_is_live_set (st : ServerState) (cid : ConnId) (uid : UserId)
    (content : List Char) (topicId : TopicId) (replyTo : Option MessageId)
    (now : Int) (topic : Topic)
    (htrim : jsTrim content ≠ []) (hlen : content.length ≤ 1000)
    (hfind : st.topics.find? (fun t => t.id == topicId) = some topic)
    (hacc : (!topic.isPrivate || topic.members.contains uid) = true) :
    (sendMessage st cid uid content topicId replyTo now).2 =
      [⟨liveSet st topicId,
        .newMessage ⟨st.nextMessageId, jsTrim content, uid, topicId, false,
          none, replyTo, [], now⟩⟩] ∧
    (cid ∈ liveSet st topicId →
      (sendMessage st cid uid content topicId replyTo now).2.all
        (fun e => e.recipients.contains cid) = true) := by
  have hlen2 : ¬ content.length > 1000 := by omega
  have hemit : (sendMessage st cid uid content topicId replyTo now).2 =
      [⟨liveSet st topicId,
        .newMessage ⟨st.nextMessageId, jsTrim content, uid, topicId, false,
          none, replyTo, [], now⟩⟩] := by
    unfold sendMessage
    rw [if_neg htrim, if_neg hlen2]
    simp only [hfind]
    rw [if_pos hacc]
  refine ⟨hemit, fun hmem => ?_⟩
  rw [hemit]
  simp only [List.all_cons, List.all_nil, Bool.and_true]
  simpa using hmem

/-- Witness for the amended C1: the joined socket 20 sends and its own
connection is in the fan-out. -/
theorem C1_fanout_is_live_set_witness :
    (sendMessage stC1 20 200 ['h', 'i'] 1 none 5).2 =
      [⟨[20], .newMessage ⟨0, ['h', 'i'], 200, 1, false, none, none, [], 5⟩⟩] ∧
    (sendMessage stC1 20 200 ['h', 'i'] 1 none 5).2.all
      (fun e => e.recipients.contains 20) = true := by
  have h := C1_fanout_is_live_set stC1 20 200 ['h', 'i'] 1 none 5 topicC1
    (by decide) (by decide) (by decide) (by decide)
  exact ⟨h.1.trans (by decide), h.2 (by decide)⟩

/-- C3 counterexample: socket 10 has no joined room (`currentTopic` is
none), yet its send to room 1 succeeds — a message is persisted and a
new-message fan-out is emitted, instead of failing with NotJoined. -/
theorem C3_counterexample :
    connCurrent stC1 10 = none ∧
    resC1.1.messages.length = 1 ∧
    resC1.2.any (fun e => isNewMessage e.event) = true := by
  decide

/-- C3 amended: the send handler takes an explicit topic id and never
consults the connection's joined room: a connection whose `joinedRoomId` is
unset sends successfully (message persisted and broadcast) whenever the
content is valid and the topic exists and is accessible; there is no
NotJoined failure. -/
theorem C3_send_without_join (st : ServerState) (cid : ConnId) (uid : UserId)
    (content : List Char) (topicId : TopicId) (replyTo : Option MessageId)
    (now : Int) (topic : Topic)
    (hconn : connCurrent st cid = none)
    (htrim : jsTrim content ≠ []) (hlen : content.length ≤ 1000)
    (hfind : st.topics.find? (fun t => t.id == topicId) = some topic)
    (hacc : (!topic.isPrivate || topic.members.contains uid) = true) :
    (sendMessage st cid uid content topicId replyTo now).1.messages =
      st.messages ++ [⟨st.nextMessageId, jsTrim content, uid, topicId, false,
        none, replyTo, [], now⟩] ∧
    (sendMessage st cid uid content topicId replyTo now).2 =
      [⟨liveSet st topicId,
        .newMessage ⟨st.nextMessageId, jsTrim content, uid, topicId, false,
          none, replyTo, [], now⟩⟩] := by
  have hlen2 : ¬ content.length > 1000 := by omega
  unfold sendMessage
  rw [if_neg htrim, if_neg hlen2]
  simp only [hfind]
  rw [if_pos hacc]
  exact ⟨rfl, rfl⟩

/-- Witness for the amended C3, at the unjoined socket 10. -/
theorem C3_send_without_join_witness :
    connCurrent stC1 10 = none ∧
    resC1.1.messages = [⟨0, ['h', 'i'], 100, 1, false, none, none, [], 5⟩] ∧
    resC1.2 = [⟨[20], .newMessage ⟨0, ['h', 'i'], 100, 1, false, none, none,
      [], 5⟩⟩] := by
  have h := C3_send_without_join stC1 10 100 ['h', 'i'] 1 none 5 topicC1
    (by decide) (by decide) (by decide) (by decide) (by decide)
  exact ⟨by decide, h.1.trans (by decide), h.2.trans (by decide)⟩

/-! ### C9: content validation of send -/

/-- A content of raw length 1001 whose trimmed length is 1. -/
def contentC9 : List Char := 'a' :: List.replicate 1000 ' '

set_option maxRecDepth 10000 in
/-- C9 counterexample: a content whose trimmed length is 1 (inside 1..1000)
is rejected as too long, because the upper bound is checked on the raw,
untrimmed length (1001 here); the state is unchanged. -/
theorem C9_counterexample :
    (jsTrim contentC9).length = 1 ∧
    sendMessage stC1 20 200 contentC9 1 none 5 =
      (stC1, [⟨[20], .messageError .contentTooLong⟩]) := by
  decide

/-- C9 amended: send fails with empty-content exactly when the trimmed
content is empty, fails with too-long exactly when the raw (untrimmed)
length exceeds 1000, and otherwise persists the message with the trimmed
content. -/
theorem C9_content_validation (st : ServerState) (cid : ConnId)
    (uid : UserId) (content : List Char) (topicId : TopicId)
    (replyTo : Option MessageId) (now : Int) (topic : Topic)
    (hfind : st.topics.find? (fun t => t.id == topicId) = some topic)
    (hacc : (!topic.isPrivate || topic.members.contains uid) = true) :
    (jsTrim content = [] →
      sendMessage st cid uid content topicId replyTo now =
        (st, [⟨[cid], .messageError .emptyContent⟩])) ∧
    (jsTrim content ≠ [] → content.length > 1000 →
      sendMessage st cid uid content topicId replyTo now =
        (st, [⟨[cid], .messageError .contentTooLong⟩])) ∧
    (jsTrim content ≠ [] → content.length ≤ 1000 →
      (sendMessage st cid uid content topicId replyTo now).1.messages =
        st.messages ++ [⟨st.nextMessageId, jsTrim content, uid, topicId,
          false, none, replyTo, [], now⟩]) := by
  refine ⟨fun h1 => ?_, fun h1 h2 => ?_, fun h1 h2 => ?_⟩
  · unfold sendMessage
    rw [if_pos h1]
  · unfold sendMessage
    rw [if_neg h1, if_pos h2]
  · have hlen2 : ¬ content.length > 1000 := by omega
    unfold sendMessage
    rw [if_neg h1, if_neg hlen2]
    simp only [hfind]
    rw [if_pos hacc]

set_option maxRecDepth 10000 in
/-- Witness for the amended C9: the three validation outcomes at concrete
contents (all-blank, raw length 1001, and "hi"). -/
theorem C9_content_validation_witness :
    sendMessage stC1 20 200 [' '] 1 none 5 =
      (stC1, [⟨[20], .messageError .emptyContent⟩]) ∧
    sendMessage stC1 20 200 contentC9 1 none 5 =
      (stC1, [⟨[20], .messageError .contentTooLong⟩]) ∧
    (sendMessage stC1 20 200 ['h', 'i'] 1 none 5).1.messages =
      [⟨0, ['h', 'i'], 200, 1, false, none, none, [], 5⟩] := by
  refine ⟨?_, ?_, ?_⟩
  · exact (C9_content_validation stC1 20 200 [' '] 1 none 5 topicC1
      (by decide) (by decide)).1 (by decide)
  · exact (C9_content_validation stC1 20 200 contentC9 1 none 5 topicC1
      (by decide) (by decide)).2.1 (by decide) (by decide)
  · exact ((C9_content_validation stC1 20 200 ['h', 'i'] 1 none 5 topicC1
      (by decide) (by decide)).2.2 (by decide) (by decide)).trans (by decide)

/-! ### C7: typing expiry -/

lemma countStopTyping_append (a b : List Emit) :
    countStopTyping (a ++ b) = countStopTyping a + countStopTyping b := by
  simp [countStopTyping, List.filter_append]

lemma countStopTyping_step (st : ServerState) (c : Command) :
    countStopTyping (step st c).2 = if isTypingStopCmd c then 1 else 0 := by
  cases c with
  | join cid uid t =>
    show countStopTyping (joinTopic st cid uid t).2 = 0
    unfold joinTopic
    cases st.topics.find? (fun x => x.id == t) with
    | none => rfl
    | some topic =>
      dsimp only
      by_cases h : (!topic.isPrivate || topic.members.contains uid) = true
      · rw [if_pos h]
        rfl
      · rw [if_neg h]
        rfl
  | leave cid uid t => rfl
  | send cid uid content t replyTo now =>
    show countStopTyping (sendMessage st cid uid content t replyTo now).2 = 0
    unfold sendMessage
    by_cases h1 : jsTrim content = []
    · rw [if_pos h1]
      rfl
    · rw [if_neg h1]
      by_cases h2 : content.length > 1000
      · rw [if_pos h2]
        rfl
      · rw [if_neg h2]
        cases st.topics.find? (fun x => x.id == t) with
        | none => rfl
        | some topic =>
          dsimp only
          by_cases h3 : (!topic.isPrivate || topic.members.contains uid) = true
          · rw [if_pos h3]
            rfl
          · rw [if_neg h3]
            rfl
  | typingStart cid uid t => rfl
  | typingStop cid uid t => rfl
  | react cid uid mid emoji now =>
    show countStopTyping (addReactionHandler st cid uid mid emoji now).2 = 0
    unfold addReactionHandler
    by_cases h : emoji = "" ∨ emoji.length > 10
    · rw [if_pos h]
      rfl
    · rw [if_neg h]
      cases st.messages.find? (fun m => m.id == mid) with
      | none => rfl
      | some m => rfl
  | disconnect cid uid =>
    show countStopTyping (disconnectHandler st cid uid).2 = 0
    unfold disconnectHandler
    cases connCurrent st cid with
    | none => rfl
    | some t => rfl

/-- A state with sockets 10 and 20 both joined to room 1. -/
def stC7 : ServerState :=
  ⟨[topicC1], [], [⟨10, 100, some 1⟩, ⟨20, 200, some 1⟩], [(1, [10, 20])], 0⟩

/-- A trace in which socket 10 starts typing and then disconnects with no
further activity. -/
def traceC7 : List Command := [.typingStart 10 100 1, .disconnect 10 100]

/-- C7 counterexample: after a typing-start (observed by the peer) follows a
disconnect and no further activity, the server emits zero user-stop-typing
events — not exactly one; there is no server-side typing entry or timer and
disconnect does not synthesize a stop. -/
theorem C7_counterexample :
    (run stC7 traceC7).2.any (fun e => e.event == .userTyping 1 100) = true ∧
    countStopTyping (run stC7 traceC7).2 = 0 := by
  decide

/-- C7 amended: the server is a stateless typing relay — over any command
trace it emits exactly one user-stop-typing fan-out per explicit typing-stop
command, and none for timer expiry, leave or disconnect (the 3-second
inactivity timer lives in the client, which sends typing-stop while still
connected). -/
theorem C7_stop_count (st : ServerState) (cs : List Command) :
    countStopTyping (run st cs).2 = cs.countP isTypingStopCmd := by
  induction cs generalizing st with
  | nil => rfl
  | cons c cs ih =>
    show countStopTyping ((step st c).2 ++ (run (step st c).1 cs).2) = _
    rw [countStopTyping_append, countStopTyping_step, ih, List.countP_cons]
    omega

end Topicchat
